import Mathlib

/-!
Shallow embedding of `failman.py`: a CI failure-report generator.

The program polls a Buildbot-style REST API, joins the builder roster with the
latest change's build records per branch, classifies build states into failed
vs healthy, renders a CSV payload and an HTML table, and mails the report.

Python dictionaries appearing in the data flow are modelled as structures whose
fields are the keys the program actually reads; a key read with `dict.get`
(which may be missing, yielding `None`) is modelled as an `Option` field.
-/

namespace Failman

/-- One element of the `builders` list returned by `GET {base}/builders`.
The program reads `builderid` and `name` (with plain indexing, so both keys
are assumed present). -/
structure Builder where
  builderid : Nat
  name : String
deriving DecidableEq, Repr

/-- One element of a change's `builds` list.  `number` and `state_string` are
read with `dict.get`, so either may be absent (`none` models Python `None`). -/
structure BuildRecord where
  builderid : Nat
  number : Option Nat
  state_string : Option String
deriving DecidableEq, Repr

/-- The `Build` dataclass of `failman.py` (the report row): `name`, `url`,
`commit`, `branch`, `status`.  `status` is copied from a `dict.get`
result, hence `Option String`. -/
structure Build where
  name : String
  url : String
  commit : String
  branch : String
  status : Option String
deriving DecidableEq, Repr

/-- Python `str(x)` for an optional integer, as used inside an f-string:
`None` prints as the four characters `None`. -/
def pyStrOptNat : Option Nat → String
  | none => "None"
  | some n => toString n

/-- Python `str(x)` for an optional string inside an f-string: `None` prints
as `None`, a string prints as itself. -/
def pyStrOptStr : Option String → String
  | none => "None"
  | some s => s

/-- A field value handed to `csv.writer`: Python's csv writer renders `None`
as the empty field. -/
def csvField : Option String → String
  | none => ""
  | some s => s

/-- Python `str.lower()` restricted to ASCII case mapping, applied
codepoint-wise. -/
def pyLower (s : String) : String :=
  String.mk (s.data.map Char.toLower)

/-- Lexicographic comparison of two character lists by code point, with a
proper prefix comparing smaller: the order Python uses on strings. -/
def charLe : List Char → List Char → Bool
  | [], _ => true
  | _ :: _, [] => false
  | a :: as, b :: bs =>
    decide (a.toNat < b.toNat) || (decide (a.toNat = b.toNat) && charLe as bs)

/-- Python `a <= b` on strings: lexicographic on code points. -/
def pyStrLe (a b : String) : Bool :=
  charLe a.data b.data

/-- The dict comprehension `{b["builderid"]: b for b in builds}` of
`join_builders_with_change`, read back through `dict.get`: later entries
overwrite earlier ones, so a lookup returns the last record with the key. -/
def build_map (builds : List BuildRecord) (i : Nat) : Option BuildRecord :=
  builds.foldl (fun acc b => if b.builderid = i then some b else acc) none

/-- The report row constructed inside the loop of `join_builders_with_change`:
the detail URL is `{buildbot_url}#/builders/{builderid}/builds/{number}` and
the status is the record's `state_string`, unmodified. -/
def mkRow (branch revision buildbot_url : String) (builder : Builder)
    (bd : BuildRecord) : Build where
  name := builder.name
  branch := branch
  commit := revision
  url := buildbot_url ++ "#/builders/" ++ toString builder.builderid ++
    "/builds/" ++ pyStrOptNat bd.number
  status := bd.state_string

/-- The function `join_builders_with_change(builders, builds, branch, revision,
buildbot_url)`: index the records by `builderid`, iterate the builders in
order, and append a row exactly when the lookup finds a record
(`if build_data:` — a found record dict is never empty, since it at least
holds `builderid`). -/
def join_builders_with_change (builders : List Builder) (builds : List BuildRecord)
    (branch revision buildbot_url : String) : List Build :=
  builders.foldl
    (fun acc builder =>
      match build_map builds builder.builderid with
      | some bd => acc ++ [mkRow branch revision buildbot_url builder bd]
      | none => acc)
    []

/-- The literal status denylist of the `failed_builds` comprehension in
`__main__`. -/
def denylist : List String :=
  ["acquiring locks", "building", "build successful", "preparing worker"]

/-- Python `b.status.lower()`: raises `AttributeError` when `status` is
`None`, modelled by `none`. -/
def statusLower : Option String → Option String
  | none => none
  | some s => some (pyLower s)

/-- The comprehension
`[b for b in BUILDS if b.status.lower() not in [...]]` of `__main__`.
The result is `none` when some row's `status` is `None` (the attribute
access raises), otherwise the filtered list. -/
def failed_builds : List Build → Option (List Build)
  | [] => some []
  | b :: rest =>
    match statusLower b.status, failed_builds rest with
    | none, _ => none
    | some _, none => none
    | some l, some acc => some (if denylist.contains l then acc else b :: acc)

/-- Whether Python's csv writer must quote a field under the default dialect:
it contains the delimiter, the quote character, or a line-break character. -/
def needsQuoting (s : String) : Bool :=
  s.data.any (fun c => c == ',' || c == '"' || c == '\n' || c == '\r')

/-- Doubling of quote characters inside a quoted csv field. -/
def doubleQuotes : List Char → List Char
  | [] => []
  | c :: cs => if c == '"' then c :: c :: doubleQuotes cs else c :: doubleQuotes cs

/-- Minimal csv quoting as performed by Python's `csv.writer` default
dialect. -/
def csvQuote (s : String) : String :=
  if needsQuoting s then "\"" ++ String.mk (doubleQuotes s.data) ++ "\"" else s

/-- One `writer.writerow(fields)` call: the quoted fields joined by commas,
terminated by the default `\r\n` line terminator. -/
def csvLineOf (fields : List String) : String :=
  String.intercalate "," (fields.map csvQuote) ++ "\r\n"

/-- The field list written for one build row:
`[b.branch, b.name, b.commit, b.status, b.url]`. -/
def csvRowFields (b : Build) : List String :=
  [b.branch, b.name, b.commit, csvField b.status, b.url]

/-- The function `builds_to_csv`: write the header row, then one row per
build into the string buffer, and return the buffer. -/
def builds_to_csv (builds : List Build) : String :=
  builds.foldl (fun out b => out ++ csvLineOf (csvRowFields b))
    (csvLineOf ["Branch", "Build", "Commit", "Status", "URL"])

/-- The single-quote character, as a one-character string. -/
def sq : String := (Char.ofNat 39).toString

/-- The double-quote character, as a one-character string. -/
def dq : String := (Char.ofNat 34).toString

/-- The Gmail-friendly horizontal rule emitted between report sections. -/
def separatorHtml : String :=
  "<hr style=" ++ sq ++ "border:none;border-top:1px solid #ccc;margin:20px 0;" ++
    sq ++ ">"

/-- The branch keys of `defaultdict(list)` grouping, in first-insertion
order (Python dicts preserve insertion order). -/
def groupKeys (builds : List Build) : List String :=
  builds.foldl (fun ks b => if ks.contains b.branch then ks else ks ++ [b.branch]) []

/-- The bucket of one branch under the `defaultdict(list)` grouping:
the rows of that branch, in input order. -/
def grouped (builds : List Build) (branch : String) : List Build :=
  builds.filter (fun b => b.branch == branch)

/-- Python `sorted(grouped.keys(), reverse=True)`: a stable descending sort
of the (distinct) branch names. -/
def sortedBranches (builds : List Build) : List String :=
  List.insertionSort (fun a b => pyStrLe b a = true) (groupKeys builds)

/-- Python `sorted(builds_in_branch, key=lambda b: b.name.lower())`: a stable
ascending sort of a branch's rows by lower-cased builder name. -/
def sortedBucket (builds : List Build) (branch : String) : List Build :=
  List.insertionSort (fun a b => pyStrLe (pyLower a.name) (pyLower b.name) = true)
    (grouped builds branch)

/-- One `<tr>` of the per-branch table: the build name as a hyperlink, the
commit, and the status. -/
def htmlTableRow (b : Build) : String :=
  "<tr><td><a href=" ++ dq ++ b.url ++ dq ++ ">" ++ b.name ++ "</a></td><td>" ++
    b.commit ++ "</td><td>" ++ pyStrOptStr b.status ++ "</td></tr>"

/-- The `<table>` markup of one branch bucket, header row included. -/
def tableHtml (bs : List Build) : String :=
  "<table border=" ++ sq ++ "1" ++ sq ++ " cellpadding=" ++ sq ++ "4" ++ sq ++
    " cellspacing=" ++ sq ++ "0" ++ sq ++ " style=" ++ sq ++
    "border-collapse:collapse" ++ sq ++ ">" ++
    String.join ("<tr><th>Build</th><th>Commit</th><th>Status</th></tr>" ::
      bs.map htmlTableRow) ++ "</table>"

/-- The four entries appended to `html_parts` for one branch: heading, rule,
table, rule. -/
def branchSection (builds : List Build) (branch : String) : List String :=
  ["<h3>Branch: " ++ branch ++ "</h3>", separatorHtml,
    tableHtml (sortedBucket builds branch), separatorHtml]

/-- The function `builds_to_html_table`: group by branch, iterate branches in
descending order, sort each bucket by lower-cased name, and join all parts
with a newline. -/
def builds_to_html_table (builds : List Build) : String :=
  String.intercalate "\n"
    (((sortedBranches builds).map (branchSection builds)).flatten)

/-- The builder allow-list filter of `__main__`:
`set(config...get("builder_filter") or [])`, then keep a builder when the set
is empty or contains its name. -/
def filter_builders (builders : List Builder)
    (builder_filter : Option (List String)) : List Builder :=
  let fs := builder_filter.getD []
  builders.filter (fun bl => fs.isEmpty || fs.contains bl.name)

/-- One `send_email_with_csv` call, recorded with the arguments the report
pipeline passes. -/
structure MailCall where
  sender : String
  recipient : String
  subject : String
  html_body : String
  csv_content : String
deriving DecidableEq, Repr

/-- The observable outcome of the tail of `__main__`: the mail calls made and
the lines printed. -/
structure RunOutcome where
  mails : List MailCall
  printed : List String
deriving DecidableEq, Repr

/-- The tail of `__main__` after `BUILDS` is accumulated: classify failures
(`none` models the raised `AttributeError`), then either send exactly one
mail carrying the HTML body and the CSV attachment, or print the quiet
success message. -/
def report_step (sender recipient subject : String) (builds : List Build) :
    Option RunOutcome :=
  match failed_builds builds with
  | none => none
  | some fb =>
    if fb.isEmpty then
      some { mails := [], printed := ["Grab a coffee and enjoy a bug free world!"] }
    else
      some { mails := [{ sender := sender, recipient := recipient,
                         subject := subject,
                         html_body := builds_to_html_table fb,
                         csv_content := builds_to_csv fb }],
             printed := [] }



/-- Concatenation of a list of strings, in order. -/
def concatStrings (l : List String) : String :=
  l.foldr (fun a b => a ++ b) ""

/-- The claim's classifier predicate: keep a row whose lower-cased status is
not one of the four denylist literals (a row with an absent status is not
constrained by the claim's general sentence, so it is kept here). -/
def keepRow (b : Build) : Bool :=
  match b.status with
  | some s => !(denylist.contains (pyLower s))
  | none => true

/-- A report row with the given status, used in classifier examples. -/
def statusRow (s : Option String) : Build :=
  ⟨"b", "u", "c", "br", s⟩

/-- Two failed rows on branches `dev` and `main` (input order: `dev` first). -/
def c6ex : List Build :=
  [⟨"x", "u1", "c1", "dev", some "failed"⟩, ⟨"y", "u2", "c2", "main", some "failed"⟩]

/-- Two failed rows on one branch whose builder names are `b` and `A`. -/
def c6bex : List Build :=
  [⟨"b", "u1", "c1", "dev", some "failed"⟩, ⟨"A", "u2", "c2", "dev", some "failed"⟩]

/-- The two example rows of the spec's CSV test vector. -/
def c7ex : List Build :=
  [⟨"build-A", "http://x/A", "abc123", "main", some "success"⟩,
   ⟨"build-B", "http://x/B", "def456", "dev", some "failed"⟩]

/-- A single failed row, used to exercise the mail branch. -/
def wFail : Build :=
  ⟨"B1", "u", "c", "main", some "failed"⟩

/-! Helper lemmas about the embedded operations. -/

theorem charLe_total (as bs : List Char) : charLe as bs = true ∨ charLe bs as = true := by
  induction as generalizing bs with
  | nil => left; rfl
  | cons a as ih =>
    cases bs with
    | nil => right; rfl
    | cons b bs =>
      rcases Nat.lt_trichotomy a.toNat b.toNat with h | h | h
      · left; simp [charLe, h]
      · rcases ih bs with h2 | h2
        · left; simp [charLe, h, h2]
        · right; simp [charLe, h.symm, h2]
      · right; simp [charLe, h]

theorem charLe_trans : ∀ {as bs cs : List Char},
    charLe as bs = true → charLe bs cs = true → charLe as cs = true
  | [], _, _, _, _ => rfl
  | _ :: _, [], _, h1, _ => by simp [charLe] at h1
  | _ :: _, _ :: _, [], _, h2 => by simp [charLe] at h2
  | a :: as, b :: bs, c :: cs, h1, h2 => by
    simp only [charLe, Bool.or_eq_true, Bool.and_eq_true, decide_eq_true_eq] at h1 h2 ⊢
    rcases h1 with h1 | ⟨h1e, h1r⟩
    · rcases h2 with h2 | ⟨h2e, h2r⟩
      · exact Or.inl (Nat.lt_trans h1 h2)
      · exact Or.inl (by omega)
    · rcases h2 with h2 | ⟨h2e, h2r⟩
      · exact Or.inl (by omega)
      · exact Or.inr ⟨h1e.trans h2e, charLe_trans h1r h2r⟩

theorem pyStrLe_total (a b : String) : pyStrLe a b = true ∨ pyStrLe b a = true :=
  charLe_total a.data b.data

theorem pyStrLe_trans {a b c : String} (h1 : pyStrLe a b = true)
    (h2 : pyStrLe b c = true) : pyStrLe a c = true :=
  charLe_trans h1 h2

theorem pick_foldl (i : Nat) :
    ∀ (builds : List BuildRecord) (acc : Option BuildRecord),
      builds.foldl (fun a b => if b.builderid = i then some b else a) acc
        = (builds.reverse.find? (fun b => b.builderid == i)).or acc
  | [], acc => by simp
  | b :: rest, acc => by
    rw [List.foldl_cons, pick_foldl i rest, List.reverse_cons, List.find?_append,
      Option.or_assoc]
    congr 1
    by_cases h : b.builderid = i
    · have hb : (b.builderid == i) = true := by simp [h]
      simp [List.find?, hb, h]
    · have hb : (b.builderid == i) = false := by simp [h]
      simp [List.find?, hb, h]

theorem build_map_eq_last (builds : List BuildRecord) (i : Nat) :
    build_map builds i = builds.reverse.find? (fun b => b.builderid == i) := by
  rw [build_map, pick_foldl, Option.or_none]

theorem build_map_isSome_iff (builds : List BuildRecord) (i : Nat) :
    (build_map builds i).isSome = true ↔ ∃ bd ∈ builds, bd.builderid = i := by
  rw [build_map_eq_last]
  simp [List.find?_isSome]

theorem join_eq_filterMap (builders : List Builder) (builds : List BuildRecord)
    (branch revision url : String) :
    join_builders_with_change builders builds branch revision url
      = builders.filterMap
          (fun bl => (build_map builds bl.builderid).map (mkRow branch revision url bl)) := by
  suffices h : ∀ (bs : List Builder) (acc : List Build),
      bs.foldl
        (fun acc builder =>
          match build_map builds builder.builderid with
          | some bd => acc ++ [mkRow branch revision url builder bd]
          | none => acc)
        acc
      = acc ++ bs.filterMap
          (fun bl => (build_map builds bl.builderid).map (mkRow branch revision url bl)) by
    simpa [join_builders_with_change] using h builders []
  intro bs
  induction bs with
  | nil => intro acc; simp
  | cons bl rest ih =>
    intro acc
    rw [List.foldl_cons, List.filterMap_cons]
    cases h : build_map builds bl.builderid with
    | none => simp only [h, Option.map_none']; exact ih acc
    | some bd =>
      simp only [h, Option.map_some']
      rw [ih (acc ++ [mkRow branch revision url bl bd]), List.append_assoc,
        List.singleton_append]

theorem groupKeys_nodup (builds : List Build) : (groupKeys builds).Nodup := by
  suffices h : ∀ (bs : List Build) (acc : List String), acc.Nodup →
      (bs.foldl (fun ks b => if ks.contains b.branch then ks else ks ++ [b.branch])
        acc).Nodup by
    exact h builds [] List.nodup_nil
  intro bs
  induction bs with
  | nil => intro acc hacc; simpa using hacc
  | cons b rest ih =>
    intro acc hacc
    rw [List.foldl_cons]
    cases hc : acc.contains b.branch with
    | true => simpa [hc] using ih acc hacc
    | false =>
      simp only [hc, Bool.false_eq_true, if_false]
      refine ih _ ?_
      have hmem : b.branch ∉ acc := by
        simpa using hc
      simp [List.nodup_append, hacc, hmem]

theorem builds_to_csv_unfold (builds : List Build) :
    builds_to_csv builds
      = csvLineOf ["Branch", "Build", "Commit", "Status", "URL"]
          ++ concatStrings (builds.map (fun b => csvLineOf (csvRowFields b))) := by
  suffices h : ∀ (bs : List Build) (s : String),
      bs.foldl (fun out b => out ++ csvLineOf (csvRowFields b)) s
        = s ++ concatStrings (bs.map (fun b => csvLineOf (csvRowFields b))) by
    exact h builds _
  intro bs
  induction bs with
  | nil => intro s; simp [concatStrings]
  | cons b rest ih =>
    intro s
    rw [List.foldl_cons, ih, List.map_cons]
    show _ = s ++ (csvLineOf (csvRowFields b) ++ _)
    rw [String.append_assoc]
    rfl

/-! Claim theorems. -/

/-- C1: the failure classifier keeps exactly the rows whose lower-cased
status is outside the four-literal denylist; in particular a
`Build SUCCESSFUL` status (any letter case) is excluded, while `timed out`
and the empty status are both included. -/
theorem failed_builds_eq_filter (builds : List Build)
    (h : ∀ b ∈ builds, b.status ≠ none) :
    failed_builds builds = some (builds.filter keepRow)
    ∧ failed_builds [statusRow (some "Build SUCCESSFUL")] = some []
    ∧ failed_builds [statusRow (some "timed out"), statusRow (some "")]
        = some [statusRow (some "timed out"), statusRow (some "")] := by
  refine ⟨?_, by decide, by decide⟩
  induction builds with
  | nil => rfl
  | cons b rest ih =>
    have hb := h b (List.mem_cons_self b rest)
    have hrest : ∀ x ∈ rest, x.status ≠ none :=
      fun x hx => h x (List.mem_cons_of_mem b hx)
    cases hs : b.status with
    | none => exact absurd hs hb
    | some s =>
      simp only [failed_builds, hs, statusLower, ih hrest, List.filter_cons, keepRow]
      cases hd : denylist.contains (pyLower s) with
      | true => simp [hd]
      | false => simp [hd]

/-- Witness for C1 at a concrete list: a `failed` row is kept, a `building`
row is dropped. -/
theorem failed_builds_eq_filter_witness :
    failed_builds [statusRow (some "Failed"), statusRow (some "building")]
      = some [statusRow (some "Failed")] :=
  ((failed_builds_eq_filter
      [statusRow (some "Failed"), statusRow (some "building")]
      (by decide)).1).trans (by decide)

/-- C2: the join produces a report row per builder exactly when some build
record carries that builder's id; unmatched builders and unmatched records
contribute nothing, and the join is total (no error path exists in the
model). -/
theorem join_row_iff_match (builders : List Builder) (builds : List BuildRecord)
    (branch revision url : String) :
    join_builders_with_change builders builds branch revision url
      = builders.filterMap
          (fun bl => (build_map builds bl.builderid).map (mkRow branch revision url bl))
    ∧ (∀ bl : Builder,
        (build_map builds bl.builderid).isSome = true
          ↔ ∃ bd ∈ builds, bd.builderid = bl.builderid)
    ∧ (join_builders_with_change builders builds branch revision url ≠ []
        ↔ ∃ bl ∈ builders, ∃ bd ∈ builds, bd.builderid = bl.builderid) := by
  refine ⟨join_eq_filterMap builders builds branch revision url,
    fun bl => build_map_isSome_iff builds bl.builderid, ?_⟩
  rw [join_eq_filterMap, Ne, List.filterMap_eq_nil_iff]
  push_neg
  constructor
  · rintro ⟨bl, hbl, hne⟩
    refine ⟨bl, hbl, ?_⟩
    have hsome : (build_map builds bl.builderid).isSome = true := by
      cases hmap : build_map builds bl.builderid with
      | none => rw [hmap] at hne; simp at hne
      | some bd => simp
    exact (build_map_isSome_iff builds bl.builderid).mp hsome
  · rintro ⟨bl, hbl, bd, hbd, hid⟩
    refine ⟨bl, hbl, ?_⟩
    have hsome : (build_map builds bl.builderid).isSome = true :=
      (build_map_isSome_iff builds bl.builderid).mpr ⟨bd, hbd, hid⟩
    cases hmap : build_map builds bl.builderid with
    | none => rw [hmap] at hsome; simp at hsome
    | some bd2 => simp [hmap]

/-- C9: the join emits at most one row per roster entry — several records
with the same builder id still yield one row — and the emitted rows keep the
roster's relative order (their names are the names of the matched builders,
in roster order). -/
theorem join_one_row_per_builder (builders : List Builder) (builds : List BuildRecord)
    (branch revision url : String) :
    (join_builders_with_change builders builds branch revision url).length
        ≤ builders.length
    ∧ (join_builders_with_change builders builds branch revision url).map
          (fun r => r.name)
        = (builders.filter (fun bl => (build_map builds bl.builderid).isSome)).map
            (fun bl => bl.name) := by
  constructor
  · rw [join_eq_filterMap]
    exact List.length_filterMap_le _ _
  · rw [join_eq_filterMap]
    induction builders with
    | nil => rfl
    | cons bl rest ih =>
      rw [List.filterMap_cons, List.filter_cons]
      cases hmap : build_map builds bl.builderid with
      | none => simpa [hmap] using ih
      | some bd => simpa [hmap, mkRow] using ih

/-- C5: the record index is last-write-wins — a lookup returns the record
that appears last in the input list with that builder id — and on the
spec's example (one builder `1`, two records for id `1`, the second with
state `X`) the joined row's status is `X`. -/
theorem build_map_last_write_wins :
    (∀ (builds : List BuildRecord) (i : Nat),
        build_map builds i = builds.reverse.find? (fun bd => bd.builderid == i))
    ∧ (join_builders_with_change [⟨1, "B1"⟩]
        [⟨1, some 7, some "first"⟩, ⟨1, some 8, some "X"⟩]
        "main" "abc" "http://bb/").map (fun r => r.status) = [some "X"] :=
  ⟨build_map_eq_last, by decide⟩

/-- C8: an absent or empty allow-list leaves the roster unchanged; a
non-empty allow-list keeps exactly the builders whose name belongs to it,
in roster order. -/
theorem builder_filter_semantics :
    (∀ builders : List Builder, filter_builders builders none = builders)
    ∧ (∀ builders : List Builder, filter_builders builders (some []) = builders)
    ∧ (∀ (builders : List Builder) (fs : List String), fs ≠ [] →
        filter_builders builders (some fs)
          = builders.filter (fun bl => fs.contains bl.name)) := by
  refine ⟨?_, ?_, ?_⟩
  · intro builders
    simp [filter_builders]
  · intro builders
    simp [filter_builders]
  · intro builders fs h
    cases fs with
    | nil => exact absurd rfl h
    | cons a l => simp [filter_builders]

/-- Witness for C8 at a concrete roster and allow-list. -/
theorem builder_filter_semantics_witness :
    filter_builders [⟨1, "B1"⟩, ⟨2, "B2"⟩] (some ["B1"]) = [⟨1, "B1"⟩] :=
  (builder_filter_semantics.2.2 [⟨1, "B1"⟩, ⟨2, "B2"⟩] ["B1"]
    (by decide)).trans (by decide)

/-- C10: on the empty failed-row list, the CSV projection is exactly the
header line and the HTML projection is the empty string. -/
theorem empty_rows_render_empty :
    builds_to_csv [] = "Branch,Build,Commit,Status,URL\r\n"
    ∧ builds_to_html_table [] = "" :=
  ⟨by decide, by decide⟩

/-- C4 (code evaluation): a build record whose `state_string` is absent
still yields a report row for its matching builder, but the row's status is
`None` and the classifier then crashes (`b.status.lower()` raises
`AttributeError`), modelled by the `none` result. -/
theorem missing_state_string_crashes_classifier :
    join_builders_with_change [⟨1, "B1"⟩] [⟨1, some 42, none⟩] "main" "abc" "http://bb/"
      = [⟨"B1", "http://bb/#/builders/1/builds/42", "abc", "main", none⟩]
    ∧ failed_builds
        [⟨"B1", "http://bb/#/builders/1/builds/42", "abc", "main", none⟩] = none :=
  ⟨by decide, rfl⟩

/-- C3: once the classifier has produced the failed list, an empty list
leads to the quiet-success print and no mail call, while a non-empty list
leads to exactly one mail call whose body is the HTML projection and whose
attachment content is the CSV projection. -/
theorem report_quiet_or_single_mail (sender recipient subject : String)
    (builds fb : List Build) (h : failed_builds builds = some fb) :
    (fb = [] →
      report_step sender recipient subject builds
        = some ⟨[], ["Grab a coffee and enjoy a bug free world!"]⟩)
    ∧ (fb ≠ [] →
      report_step sender recipient subject builds
        = some ⟨[⟨sender, recipient, subject,
            builds_to_html_table fb, builds_to_csv fb⟩], []⟩) := by
  constructor
  · intro he
    subst he
    simp [report_step, h]
  · intro hne
    cases fb with
    | nil => exact absurd rfl hne
    | cons x xs => simp [report_step, h]

/-- Witness for C3: one failed row produces exactly one recorded mail call
carrying the rendered HTML body and CSV attachment. -/
theorem report_quiet_or_single_mail_witness :
    report_step "s" "r" "subj" [wFail]
      = some ⟨[⟨"s", "r", "subj",
          builds_to_html_table [wFail], builds_to_csv [wFail]⟩], []⟩ :=
  (report_quiet_or_single_mail "s" "r" "subj" [wFail] [wFail]
    (by decide)).2 (by decide)

set_option maxRecDepth 16384 in
/-- C6 counterexample: with rows on branches `dev` and `main`, the rendered
HTML is the `main` section followed by the `dev` section — not the `dev`
section first as the claim's example asserts (descending order puts `main`
before `dev`). -/
theorem html_dev_before_main_false :
    builds_to_html_table c6ex
        = String.intercalate "\n" (branchSection c6ex "main" ++ branchSection c6ex "dev")
    ∧ builds_to_html_table c6ex
        ≠ String.intercalate "\n" (branchSection c6ex "dev" ++ branchSection c6ex "main") :=
  ⟨by decide, by decide⟩

set_option maxRecDepth 16384 in
/-- C6 amended: branch buckets are iterated in branch-name descending
(case-sensitive, code-point) order over distinct branch names, rows inside a
bucket are ordered by lower-cased builder name ascending; for branches
`main` and `dev` the `main` section precedes `dev`, and builders `b`, `A`
render `A` before `b`. -/
theorem html_branch_desc_builder_asc :
    (∀ builds : List Build,
      (sortedBranches builds).Pairwise (fun a b => pyStrLe b a = true))
    ∧ (∀ builds : List Build, (sortedBranches builds).Nodup)
    ∧ (∀ (builds : List Build) (br : String),
      (sortedBucket builds br).Pairwise
        (fun a b => pyStrLe (pyLower a.name) (pyLower b.name) = true))
    ∧ builds_to_html_table c6ex
        = String.intercalate "\n" (branchSection c6ex "main" ++ branchSection c6ex "dev")
    ∧ (sortedBucket c6bex "dev").map (fun b => b.name) = ["A", "b"] := by
  refine ⟨?_, ?_, ?_, by decide, by decide⟩
  · intro builds
    haveI : IsTotal String (fun a b => pyStrLe b a = true) :=
      ⟨fun a b => pyStrLe_total b a⟩
    haveI : IsTrans String (fun a b => pyStrLe b a = true) :=
      ⟨fun _ _ _ h1 h2 => pyStrLe_trans h2 h1⟩
    exact List.sorted_insertionSort _ _
  · intro builds
    exact (List.perm_insertionSort _ _).nodup_iff.mpr (groupKeys_nodup builds)
  · intro builds br
    haveI : IsTotal Build (fun a b : Build => pyStrLe (pyLower a.name) (pyLower b.name) = true) :=
      ⟨fun a b => pyStrLe_total _ _⟩
    haveI : IsTrans Build (fun a b : Build => pyStrLe (pyLower a.name) (pyLower b.name) = true) :=
      ⟨fun _ _ _ h1 h2 => pyStrLe_trans h1 h2⟩
    exact List.sorted_insertionSort _ _

/-- C7: the CSV projection is the literal header line followed by exactly
one data line per row, in the order supplied; on the spec's example it is
the header plus the two expected data lines. -/
theorem csv_header_then_rows_in_order (builds : List Build) :
    builds_to_csv builds
      = "Branch,Build,Commit,Status,URL\r\n"
          ++ concatStrings (builds.map (fun b => csvLineOf (csvRowFields b)))
    ∧ (builds.map (fun b => csvLineOf (csvRowFields b))).length = builds.length
    ∧ builds_to_csv c7ex
        = "Branch,Build,Commit,Status,URL\r\nmain,build-A,abc123,success,http://x/A\r\ndev,build-B,def456,failed,http://x/B\r\n" := by
  refine ⟨?_, List.length_map _ _, by decide⟩
  rw [builds_to_csv_unfold]
  congr 1

end Failman
